import Mathlib

/-!
Shallow embedding of `Visualize_Logs/objects/CuckooJSONReport.py` (class
`CuckooJSONReport`), restricted to the graph-construction pipeline that runs
from `__init__`: `_add_all_processes`, `_add_network_activity`,
`_add_file_activity` and their helpers.  Python dictionaries are modelled as
association lists preserving insertion order (CPython dicts iterate in
insertion order), pandas DataFrames of calls as lists preserving row order
(all the filters used preserve order), timestamps as naturals
(`pandas.to_datetime` is an order-isomorphic reparse, modelled as the
identity), and Python exceptions (`re.error`, `KeyError`, `ValueError`,
`TypeError`, `AttributeError`, `IndexError`) as an `Except` error type.
-/

namespace VL

/-- Python runtime errors that the modelled code paths can raise. -/
inductive PyErr : Type where
  | reError
  | keyError
  | valueError
  | typeError
  | attributeError
  | indexError
deriving DecidableEq, Repr

/-! ### A model of `re.search(pattern, string, re.IGNORECASE)`

The source calls `re.search` only through `_search_re`, with patterns that use
literals, `.`, `*` and backslash escapes.  The model supports exactly those
constructs; a backslash followed by an ASCII letter or digit is a compile
error, matching CPython >= 3.7 where unknown escapes of ASCII letters and
out-of-range group references are `re.error` (this is the behaviour on every
escape form that occurs in the report data analysed here).  Matching is
unanchored substring search, case-insensitive, exactly like
`re.search(..., re.IGNORECASE)` truthiness. -/

/-- One regex atom: the wildcard `.` or a literal character. -/
inductive RAtom : Type where
  | any
  | lit (c : Char)
deriving DecidableEq, Repr

/-- A token is an atom together with a flag telling whether it is starred. -/
abbrev RTok := RAtom × Bool

/-- Compile a pattern (as a character list) to tokens; `Except` models
`re.error`. -/
def compilePat : List Char → Except PyErr (List RTok)
  | [] => .ok []
  | '*' :: _ => .error .reError
  | '\\' :: [] => .error .reError
  | '\\' :: c :: '*' :: rest =>
      if c.isAlphanum then .error .reError
      else (compilePat rest).map (fun ts => (RAtom.lit c, true) :: ts)
  | '\\' :: c :: rest =>
      if c.isAlphanum then .error .reError
      else (compilePat rest).map (fun ts => (RAtom.lit c, false) :: ts)
  | '.' :: '*' :: rest => (compilePat rest).map (fun ts => (RAtom.any, true) :: ts)
  | '.' :: rest => (compilePat rest).map (fun ts => (RAtom.any, false) :: ts)
  | c :: '*' :: rest => (compilePat rest).map (fun ts => (RAtom.lit c, true) :: ts)
  | c :: rest => (compilePat rest).map (fun ts => (RAtom.lit c, false) :: ts)

/-- Case-insensitive atom/character match (`re.IGNORECASE`). -/
def tokMatch (a : RAtom) (c : Char) : Bool :=
  match a with
  | .any => true
  | .lit d => d.toLower == c.toLower

/-- Can the remaining pattern match the empty string (all tokens starred)? -/
def nullable : List RTok → Bool
  | [] => true
  | (_, true) :: ps => nullable ps
  | (_, false) :: _ => false

/-- All pattern suffixes reachable by deciding to skip leading starred
tokens now. -/
def closure : List RTok → List (List RTok)
  | [] => [[]]
  | (a, true) :: ps => ((a, true) :: ps) :: closure ps
  | (a, false) :: ps => [(a, false) :: ps]

/-- Consume one character from a pattern suffix: the possible residual
suffixes. -/
def stepOne (c : Char) (ps : List RTok) : List (List RTok) :=
  (closure ps).filterMap (fun q =>
    match q with
    | [] => none
    | (a, st) :: rest =>
        if tokMatch a c then some (if st then (a, st) :: rest else rest) else none)

/-- Does some prefix of `cs` match the pattern, starting from the suffix set
`S`?  (NFA-style simulation; `dedup` keeps the suffix set small and does not
change the answer.) -/
def matchPre (S : List (List RTok)) : List Char → Bool
  | [] => S.any (fun ps => nullable ps)
  | c :: cs =>
      if S.any (fun ps => nullable ps) then true
      else matchPre ((S.flatMap (stepOne c)).dedup) cs

/-- Does the pattern match starting at some position of `cs`? -/
def searchCore (ps : List RTok) : List Char → Bool
  | [] => matchPre [ps] []
  | c :: cs => matchPre [ps] (c :: cs) || searchCore ps cs

/-- `re.search(pattern, text, re.IGNORECASE)` truthiness;
`.error` models `re.error` raised while compiling `pattern`. -/
def reSearch (pattern text : String) : Except PyErr Bool :=
  (compilePat pattern.data).map (fun ps => searchCore ps text.data)

/-- `CuckooJSONReport._search_re(string, expressions)`.  Faithful to the
source, which calls `re.search(string, e, re.IGNORECASE)` for each `e` —
i.e. `string` is used as the PATTERN and each expression as the text — and
returns on the first hit.  (The docstring of `_search_re` describes the
opposite convention.) -/
def search_re (s : String) (expressions : List String) : Except PyErr Bool :=
  match expressions with
  | [] => .ok false
  | e :: rest => do
      let m ← reSearch s e
      if m then pure true else search_re s rest

/-- `_search_re` when the Python variable holding the string can be `None`
(as happens for the unchecked existing-path of a copy): `re.search(None, e)`
raises `TypeError`, but only if the loop body runs at all. -/
def search_re_o (s : Option String) (expressions : List String) : Except PyErr Bool :=
  match expressions with
  | [] => .ok false
  | _ :: _ =>
      match s with
      | none => .error .typeError
      | some str => search_re str expressions

end VL

namespace VL

/-! ### Decimal rendering of ints, modelling `"{0}".format(n)` on a Python int -/

/-- Decimal digit character (`48 = '0'`). -/
def digitChar (d : Nat) : Char := Char.ofNat (48 + d)

/-- Decimal digits of `n`, most significant first; `fuel` bounds recursion
depth (any fuel above `n` is enough, see `digitsToNat_natDigitsAux`). -/
def natDigitsAux : Nat → Nat → List Char
  | 0, _ => []
  | fuel + 1, n => if n < 10 then [digitChar n] else natDigitsAux fuel (n / 10) ++ [digitChar (n % 10)]

/-- Decimal string of a natural, as Python `str.format` renders an int. -/
def natStr (n : Nat) : String := String.mk (natDigitsAux (n + 1) n)

/-! ### Input document shape (section 6 of the report schema) -/

/-- One name/value argument of an intercepted API call. -/
structure Argument where
  name : String
  value : String
deriving DecidableEq, Repr, Inhabited

/-- One intercepted API call row. -/
structure Call where
  api : String
  status : Bool
  timestamp : Nat
  arguments : List Argument
deriving DecidableEq, Repr, Inhabited

/-- One entry of `behavior.processes`. -/
structure ProcessEntry where
  process_id : Nat
  first_seen : Nat
  calls : List Call
deriving DecidableEq, Repr, Inhabited

/-- One (recursive) entry of `behavior.processtree`. -/
inductive PTree : Type where
  | node (pid : Nat) (parent_id : Nat) (nm : String) (module_path : String)
      (threads : List Nat) (environ : List (String × String))
      (children : List PTree) : PTree
deriving Inhabited

/-- The pid of a process-tree entry. -/
def PTree.pid : PTree → Nat
  | .node p _ _ _ _ _ _ => p

/-- One row of `network.domains`. -/
structure Domain where
  domain : String
  ip : String
deriving DecidableEq, Repr, Inhabited

/-- The parsed JSON report (only the keys the modelled code reads). -/
structure Report where
  processtree : List PTree
  processes : List ProcessEntry
  domains : List Domain
deriving Inhabited

/-! ### The per-node metadata dict (`self.nodemetadata[...]` values)

A Python dict with heterogeneous values; each key that the source ever sets
becomes an optional field (`none` = key absent). -/

/-- The value dict stored per node in `nodemetadata`. -/
structure NodeMeta where
  node_type : String := ""
  pid : Option Nat := none
  parent_id : Option Nat := none
  nm : Option String := none
  module_path : Option String := none
  threads : Option (List Nat) := none
  environ : Option (List (String × String)) := none
  children : List String := []
  cmdline : Option String := none
  first_seen : Option Nat := none
  calls : Option (List Call) := none
  file : Option String := none
  existingfile : Option String := none
  newfile : Option String := none
  timestamp : Option Nat := none
  existedbefore : Option String := none
  desiredaccess : Option String := none
  createdisposition : Option String := none
  fileattribtes : Option String := none
  socket : Option String := none
  protocol : Option String := none
  opentime : Option Nat := none
  closetime : Option (Option Nat) := none
  host : Option String := none
  ip : Option String := none
  port : Option String := none
deriving DecidableEq, Repr, Inhabited

/-- `nodemetadata`: an insertion-ordered dict, as an association list. -/
abbrev Md := List (String × NodeMeta)

/-- Key membership (`k in d`). -/
def mdHas (md : Md) (k : String) : Bool := md.any (fun p => p.1 == k)

/-- Value lookup. -/
def mdFind (md : Md) (k : String) : Option NodeMeta :=
  (md.find? (fun p => p.1 == k)).map (fun p => p.2)

/-- `d[k] = v`: overwrite in place if present, else append (CPython dict
insertion-order semantics). -/
def mdInsert (md : Md) (k : String) (v : NodeMeta) : Md :=
  if mdHas md k then md.map (fun p => if p.1 == k then (p.1, v) else p)
  else md ++ [(k, v)]

/-- `d[k]['field'] = ...` through a bare subscript: `KeyError` when `k` is
absent. -/
def mdSetF (md : Md) (k : String) (f : NodeMeta → NodeMeta) : Except PyErr Md :=
  if mdHas md k then .ok (md.map (fun p => if p.1 == k then (p.1, f p.2) else p))
  else .error .keyError

/-- Field update at a key that the surrounding source flow guarantees to be
present (no-op when absent; used only where Python cannot `KeyError`). -/
def mdModify (md : Md) (k : String) (f : NodeMeta → NodeMeta) : Md :=
  md.map (fun p => if p.1 == k then (p.1, f p.2) else p)

/-! ### The networkx `DiGraph` -/

/-- Directed graph: nodes carry the optional `type` attribute (an endpoint
auto-added by `add_edge` has no attributes); edge and node lists keep
first-insertion order, duplicates ignored. -/
structure DG where
  nodes : List (String × Option String) := []
  edges : List (String × String) := []
deriving DecidableEq, Repr, Inhabited

/-- `n in g` (networkx node membership). -/
def dgHasNode (g : DG) (n : String) : Bool := g.nodes.any (fun p => p.1 == n)

/-- `g.add_node(n, type=ty)`. -/
def dgAddNode (g : DG) (n : String) (ty : String) : DG :=
  if dgHasNode g n then
    { g with nodes := g.nodes.map (fun p => if p.1 == n then (p.1, some ty) else p) }
  else { g with nodes := g.nodes ++ [(n, some ty)] }

/-- Auto-add an edge endpoint without attributes, if missing. -/
def dgEnsure (g : DG) (n : String) : DG :=
  if dgHasNode g n then g else { g with nodes := g.nodes ++ [(n, none)] }

/-- `g.add_edge(a, b)`. -/
def dgAddEdge (g : DG) (a b : String) : DG :=
  let g := dgEnsure g a
  let g := dgEnsure g b
  if g.edges.any (fun e => e.1 == a && e.2 == b) then g
  else { g with edges := g.edges ++ [(a, b)] }

/-- The `type` attribute of a node, if the node exists. -/
def dgNodeType (g : DG) (n : String) : Option (Option String) :=
  (g.nodes.find? (fun p => p.1 == n)).map (fun p => p.2)

/-! ### Object state during construction -/

/-- The mutable attributes of a `CuckooJSONReport` object that the modelled
pipeline reads or writes. -/
structure RState where
  digraph : DG := {}
  nodemetadata : Md := []
  rootpid : String := ""
  ignorepaths : List String := []
  includepaths : List String := []
  domains : List Domain := []
deriving Inhabited

/-! ### Entity node identity (`_add_file`, `_add_host`, `_add_ip`) -/

/-- `filename.replace('\\', '\\\\')`: double every backslash. -/
def escapeBS : List Char → List Char
  | [] => []
  | c :: cs => if c = '\\' then '\\' :: '\\' :: escapeBS cs else c :: escapeBS cs

/-- Node name `'"FILE {0}"'.format(escaped)`. -/
def fileNodeName (filename : String) : String :=
  "\"FILE " ++ String.mk (escapeBS filename.data) ++ "\""

/-- Node name `"HOST {0}".format(host)`. -/
def hostNodeName (host : String) : String := "HOST " ++ host

/-- Node name `'"IP {0}"'.format(ip)`. -/
def ipNodeName (ip : String) : String := "\"IP " ++ ip ++ "\""

/-- `_add_file`: get-or-create the FILE entity node; returns its name. -/
def add_file (st : RState) (filename : String) : RState × String :=
  let filenodename := fileNodeName filename
  if mdHas st.nodemetadata filenodename then (st, filenodename)
  else
    let md := mdInsert st.nodemetadata filenodename
      { node_type := "FILE", file := some filename }
    let g := dgAddNode st.digraph filenodename "FILE"
    ({ st with nodemetadata := md, digraph := g }, filenodename)

/-- `_add_file` when the Python argument can be `None`
(`None.replace` raises `AttributeError`). -/
def add_file_o (st : RState) : Option String → Except PyErr (RState × String)
  | none => .error .attributeError
  | some s => .ok (add_file st s)

/-- `_add_host`: get-or-create the host entity node.  NOTE: faithful to the
source, which stores `node_type = 'IP'` in the metadata while tagging the
graph node `type='HOST'`. -/
def add_host (st : RState) (host : String) : RState × String :=
  let hostnodename := hostNodeName host
  if mdHas st.nodemetadata hostnodename then (st, hostnodename)
  else
    let md := mdInsert st.nodemetadata hostnodename
      { node_type := "IP", host := some host }
    let g := dgAddNode st.digraph hostnodename "HOST"
    ({ st with nodemetadata := md, digraph := g }, hostnodename)

/-- `_add_ip`: get-or-create the IP entity node. -/
def add_ip (st : RState) (ip : String) : RState × String :=
  let ipnodename := ipNodeName ip
  if mdHas st.nodemetadata ipnodename then (st, ipnodename)
  else
    let md := mdInsert st.nodemetadata ipnodename
      { node_type := "IP", ip := some ip }
    let g := dgAddNode st.digraph ipnodename "IP"
    ({ st with nodemetadata := md, digraph := g }, ipnodename)

/-! ### Event node identity -/

/-- The eight event-node categories and the literal name prefixes the source
formats them with. -/
inductive EvTag : Type where
  | fileCreate | fileWrite | fileRead | fileCopy | fileDelete | fileMove
  | socketEv | tcpConnect
deriving DecidableEq, Repr, Fintype

/-- The format-string head used for each event category
(`"FILE CREATE {0}"` etc.). -/
def evTagStr : EvTag → String
  | .fileCreate => "FILE CREATE "
  | .fileWrite => "FILE WRITE "
  | .fileRead => "FILE READ "
  | .fileCopy => "FILE COPY "
  | .fileDelete => "FILE DELETE "
  | .fileMove => "FILE MOVE "
  | .socketEv => "SOCKET "
  | .tcpConnect => "TCP CONNECT "

/-- Event node name: prefix plus the sequence number
(`nextid = len(self.nodemetadata)` at allocation). -/
def eventName (t : EvTag) (n : Nat) : String := evTagStr t ++ natStr n

end VL

namespace VL

/-! ### `_add_processes_recursive` / `_add_all_processes` / `_add_process_metadata` -/

/-- Last-assignment-wins scan of an argument list for one argument name
(the Python `for arg in ...: if arg['name'] == N: x = arg['value']` idiom). -/
def argLast (args : List Argument) (nm : String) : Option String :=
  args.foldl (fun acc a => if a.name == nm then some a.value else acc) none

/-- First-hit scan with `break` (used only for the DNS `Name` argument). -/
def argFirst (args : List Argument) (nm : String) : Option String :=
  (args.find? (fun a => a.name == nm)).map (fun a => a.value)

/-- The non-recursive body of `_add_processes_recursive` for one tree entry:
register the node and its metadata, create a metadata-only placeholder for an
unseen parent pid, append to the parent's `children`, and add the parent edge
only when the parent is already a graph node. -/
def add_process_node (st : RState) (pid ppid : Nat) (nm mpath : String)
    (threads : List Nat) (environ : List (String × String)) : RState :=
  let nodename := "PID " ++ natStr pid
  let ppid_node := "PID " ++ natStr ppid
  let g := dgAddNode st.digraph nodename "PID"
  let md := mdInsert st.nodemetadata nodename
    { node_type := "PID", pid := some pid, parent_id := some ppid,
      threads := some threads, environ := some environ, nm := some nm,
      module_path := some mpath, children := [] }
  let md :=
    if mdHas md ppid_node then md
    else mdInsert md ppid_node { node_type := "PID", children := [], cmdline := some "" }
  let md := mdModify md ppid_node (fun m => { m with children := m.children ++ [nodename] })
  let g := if dgHasNode g ppid_node then dgAddEdge g ppid_node nodename else g
  { st with digraph := g, nodemetadata := md }

mutual

/-- `_add_processes_recursive`: process one tree entry, then recurse into its
children. -/
def add_processes_recursive (st : RState) : PTree → RState
  | .node pid ppid nm mpath threads environ children =>
    add_processes_list (add_process_node st pid ppid nm mpath threads environ) children

/-- The `for child in processtreedict['children']` loop. -/
def add_processes_list (st : RState) : List PTree → RState
  | [] => st
  | c :: cs => add_processes_list (add_processes_recursive st c) cs

end

/-- `_add_process_metadata`: join `behavior.processes` onto the metadata by
pid (bare subscripts, so a pid absent from the tree raises `KeyError`), then
scan for `CreateProcessInternalW` calls and assign the command line to the
child pid's entry — again through a bare subscript. -/
def add_process_metadata (st : RState) (processes : List ProcessEntry) : Except PyErr RState :=
  processes.foldlM (fun st proc => do
    let nodename := "PID " ++ natStr proc.process_id
    let md ← mdSetF st.nodemetadata nodename (fun m => { m with first_seen := some proc.first_seen })
    let md ← mdSetF md nodename (fun m => { m with calls := some proc.calls })
    let st : RState := { st with nodemetadata := md }
    let createprocs := proc.calls.filter (fun c => c.api == "CreateProcessInternalW")
    createprocs.foldlM (fun st cp => do
      let childpid := argLast cp.arguments "ProcessId"
      let cmdline0 := argLast cp.arguments "CommandLine"
      let cmdline := cmdline0.getD "Not Available"
      match childpid with
      | none => pure st
      | some cpid => do
          let childnode := "PID " ++ cpid
          let md ← mdSetF st.nodemetadata childnode (fun m => { m with cmdline := some cmdline })
          pure { st with nodemetadata := md }) st) st

/-- `_add_all_processes`: set `rootpid` from the first top-level tree entry
(`IndexError` on an empty tree), walk every top-level entry recursively, then
run the metadata pass. -/
def add_all_processes (st : RState) (report : Report) : Except PyErr RState :=
  match report.processtree with
  | [] => .error .indexError
  | t0 :: _ =>
    let st := { st with rootpid := "PID " ++ natStr t0.pid }
    let st := report.processtree.foldl add_processes_recursive st
    add_process_metadata st report.processes

/-! ### `_add_dns_lookups` / `_add_sockets` / `_add_tcp_connects` -/

/-- The `IPProto` protocol-number table of the class. -/
def IPProtoTable : List (Int × String) :=
  [(0, "IPPROTO_IP"), (1, "IPPROTO_ICMP"), (4, "IPPROTO_IGMP"),
   (6, "IPPROTO_TCP"), (8, "IPPROTO_EGP"), (12, "IPPROTO_PUP"),
   (17, "IPPROTO_UDP"), (29, "IPPROTO_IDP"), (33, "IPPROTO_DCCP"),
   (41, "IPPROTO_IPV6"), (46, "IPPROTO_RSVP"), (47, "IPPROTO_GRE"),
   (50, "IPPROTO_ESP"), (51, "IPPROTO_AH"), (92, "IPPROTO_MTP"),
   (94, "IPPROTO_BEETPH"), (98, "IPPROTO_ENCAP"), (103, "IPPROTO_PIM"),
   (108, "IPPROTO_COMP"), (132, "IPPROTO_SCTP"), (136, "IPPROTO_UDPLITE"),
   (137, "IPPROTO_MPLS"), (255, "IPPROTO_RAW")]

/-- Table lookup (`int(v) in self.IPProto`). -/
def ipProtoLookup (n : Int) : Option String :=
  (IPProtoTable.find? (fun p => p.1 == n)).map (fun p => p.2)

/-- Python `int(s)` on the strings occurring in reports: optional minus sign
followed by decimal digits; anything else raises `ValueError`. -/
def pyInt? (s : String) : Option Int :=
  let digitsVal : List Char → Option Nat := fun ds =>
    match ds with
    | [] => none
    | _ =>
      ds.foldl (fun acc c =>
        acc.bind (fun a => if c.isDigit then some (a * 10 + (c.toNat - 48)) else none))
        (some 0)
  match s.data with
  | '-' :: ds => (digitsVal ds).map (fun n => -(n : Int))
  | ds => (digitsVal ds).map (fun n => (n : Int))

/-- `_add_dns_lookups`: for each `gethostbyname` call (no status check),
get-or-create the host node, add the process edge, then link every matching
row of the domains table to an IP node. -/
def add_dns_lookups (st : RState) (node : String) (calls : List Call) : RState :=
  let dnslookups := calls.filter (fun c => c.api == "gethostbyname")
  dnslookups.foldl (fun st lookup =>
    match argFirst lookup.arguments "Name" with
    | none => st
    | some hostname =>
      let (st, hostnodename) := add_host st hostname
      let st := { st with digraph := dgAddEdge st.digraph node hostnodename }
      let ips := st.domains.filter (fun d => d.domain == hostname)
      ips.foldl (fun st row =>
        let (st, ipnodename) := add_ip st row.ip
        { st with digraph := dgAddEdge st.digraph hostnodename ipnodename }) st) st

/-- `_add_tcp_connects`: faithful to the source, including (a) the selection
window `timestamp >= opentime` (`and <= closetime` when a close exists), (b)
the `PlotConnect` handle check against the CURRENT value of the Python
variable `socketid` (which the block below reassigns), and (c) the
node-creation block being indented INSIDE the `for arg in ...` loop, so a
TCPCONNECT node is allocated at every argument position from the first `ip`
argument onward. -/
def add_tcp_connects (st : RState) (node : String) (calls : List Call)
    (socketid : String) (opentime : Nat) (closetime : Option Nat) : RState :=
  let tcpconnects : List Call :=
    match closetime with
    | some ct => calls.filter (fun c =>
        c.api == "connect" && (decide (opentime ≤ c.timestamp) && decide (c.timestamp ≤ ct)))
    | none => calls.filter (fun c => c.api == "connect" && decide (opentime ≤ c.timestamp))
  (tcpconnects.foldl (fun (acc : RState × Option String) (tcpconnect : Call) =>
    if tcpconnect.arguments.any (fun a =>
        a.name == "socket" && (match acc.2 with | some s => a.value == s | none => false)) then
      let inner : RState × Option String × Option String × Option String :=
        tcpconnect.arguments.foldl
        (fun (ac : RState × Option String × Option String × Option String) (arg : Argument) =>
          match (if arg.name == "ip" then some arg.value else ac.2.1) with
          | none =>
              (ac.1, none,
               (if arg.name == "socket" then some arg.value else ac.2.2.1),
               (if arg.name == "port" then some arg.value else ac.2.2.2))
          | some ipv =>
            let (st1, ipnodename) := add_ip ac.1 ipv
            let nextid := st1.nodemetadata.length
            let connnodename := eventName .tcpConnect nextid
            let g := dgAddNode st1.digraph connnodename "TCPCONNECT"
            let md := mdInsert st1.nodemetadata connnodename
              { node_type := "TCPCONNECT", timestamp := some tcpconnect.timestamp,
                ip := some ipv,
                socket := (if arg.name == "socket" then some arg.value else ac.2.2.1),
                port := (if arg.name == "port" then some arg.value else ac.2.2.2) }
            let g := dgAddEdge g node connnodename
            let g := dgAddEdge g connnodename ipnodename
            ({ st1 with digraph := g, nodemetadata := md }, some ipv,
             (if arg.name == "socket" then some arg.value else ac.2.2.1),
             (if arg.name == "port" then some arg.value else ac.2.2.2)))
        (acc.1, none, none, none)
      (inner.1, inner.2.2.1)
    else acc) (st, some socketid)).1

/-- `_add_sockets`: for each `socket` call (no status check), read the handle
id and protocol (Python `int()` on the protocol value, `ValueError` if it is
not numeric), allocate a SOCKET event node, find the close time as the first
later `closesocket` call, and run the TCP-connect correlation. -/
def add_sockets (st : RState) (node : String) (calls : List Call) : Except PyErr RState :=
  let sockets := calls.filter (fun c => c.api == "socket")
  sockets.foldlM (fun st sock => do
    let ids ← sock.arguments.foldlM
      (fun (acc : Option String × Option String) arg => do
        let acc := if arg.name == "socket" then (some arg.value, acc.2) else acc
        if arg.name == "protocol" then
          match pyInt? arg.value with
          | none => .error PyErr.valueError
          | some v =>
            match ipProtoLookup v with
            | some pname => pure (acc.1, some pname)
            | none => pure (acc.1, some arg.value)
        else pure acc) ((none, none) : Option String × Option String)
    match ids.1 with
    | none => pure st
    | some socketid =>
      let nextid := st.nodemetadata.length
      let socketname := eventName .socketEv nextid
      let g := dgAddNode st.digraph socketname "SOCKET"
      let closesockets := calls.filter (fun c =>
        c.api == "closesocket" && sock.timestamp < c.timestamp)
      let closetime := (closesockets.head?).map (fun c => c.timestamp)
      let md := mdInsert st.nodemetadata socketname
        { node_type := "SOCKET", socket := some socketid, protocol := ids.2,
          opentime := some sock.timestamp, closetime := some closetime }
      let g := dgAddEdge g node socketname
      let st := { st with digraph := g, nodemetadata := md }
      pure (add_tcp_connects st socketname calls socketid sock.timestamp closetime)) st

/-- `_add_network_activity`: read the domains table, then for each PID node
of a snapshot of the metadata that has an attached call list, add DNS lookups
and socket activity. -/
def add_network_activity (st : RState) (report : Report) : Except PyErr RState :=
  let st := { st with domains := report.domains }
  let metadata := st.nodemetadata
  metadata.foldlM (fun st kv =>
    if kv.2.node_type == "PID" then
      match kv.2.calls with
      | some calls =>
          let st := add_dns_lookups st kv.1 calls
          add_sockets st kv.1 calls
      | none => pure st
    else pure st) st

end VL

namespace VL

/-! ### The six file-operation correlators and `_connect_file_to_pid` -/

/-- The ignore/include guard used by every file correlator:
`_search_re(name, ignorepaths) and not _search_re(name, includepaths)`,
with Python short-circuit evaluation of `and`. -/
def fileSkip (st : RState) (filename : String) : Except PyErr Bool := do
  let b1 ← search_re filename st.ignorepaths
  if b1 then do
    let b2 ← search_re filename st.includepaths
    pure (!b2)
  else pure false

/-- `_add_file_creates`: `NtCreateFile` with `status == True`. -/
def add_file_creates (st : RState) (node : String) (calls : List Call) : Except PyErr RState :=
  let filecreates := calls.filter (fun c => c.api == "NtCreateFile" && c.status)
  filecreates.foldlM (fun st filecreate => do
    let filename := argLast filecreate.arguments "FileName"
    let existedbefore := argLast filecreate.arguments "ExistedBefore"
    let desiredaccess := argLast filecreate.arguments "DesiredAccess"
    let createdisposition := argLast filecreate.arguments "CreateDisposition"
    let fileattribtes := argLast filecreate.arguments "FileAttributes"
    match filename with
    | none => pure st
    | some fn => do
      let skip ← fileSkip st fn
      if skip then pure st
      else
        let (st, filenodename) := add_file st fn
        let nextid := st.nodemetadata.length
        let fcnodename := eventName .fileCreate nextid
        let md := mdInsert st.nodemetadata fcnodename
          { node_type := "FILECREATE", file := some fn,
            existedbefore := existedbefore, desiredaccess := desiredaccess,
            createdisposition := createdisposition, fileattribtes := fileattribtes,
            timestamp := some filecreate.timestamp }
        let g := dgAddNode st.digraph fcnodename "FILECREATE"
        let g := dgAddEdge g node fcnodename
        let g := dgAddEdge g fcnodename filenodename
        pure { st with nodemetadata := md, digraph := g }) st

/-- `_add_file_writes`: `NtWriteFile` with `status == True`, path from
`HandleName`. -/
def add_file_writes (st : RState) (node : String) (calls : List Call) : Except PyErr RState :=
  let filewrites := calls.filter (fun c => c.api == "NtWriteFile" && c.status)
  filewrites.foldlM (fun st filewrite => do
    match argLast filewrite.arguments "HandleName" with
    | none => pure st
    | some fn => do
      let skip ← fileSkip st fn
      if skip then pure st
      else
        let (st, filenodename) := add_file st fn
        let nextid := st.nodemetadata.length
        let fwnodename := eventName .fileWrite nextid
        let md := mdInsert st.nodemetadata fwnodename
          { node_type := "FILEWRITE", file := some fn,
            timestamp := some filewrite.timestamp }
        let g := dgAddNode st.digraph fwnodename "FILEWRITE"
        let g := dgAddEdge g node fwnodename
        let g := dgAddEdge g fwnodename filenodename
        pure { st with nodemetadata := md, digraph := g }) st

/-- `_add_file_reads`: `NtReadFile` with `status == True`, path from
`HandleName`. -/
def add_file_reads (st : RState) (node : String) (calls : List Call) : Except PyErr RState :=
  let filereads := calls.filter (fun c => c.api == "NtReadFile" && c.status)
  filereads.foldlM (fun st fileread => do
    match argLast fileread.arguments "HandleName" with
    | none => pure st
    | some fn => do
      let skip ← fileSkip st fn
      if skip then pure st
      else
        let (st, filenodename) := add_file st fn
        let nextid := st.nodemetadata.length
        let frnodename := eventName .fileRead nextid
        let md := mdInsert st.nodemetadata frnodename
          { node_type := "FILEREAD", file := some fn,
            timestamp := some fileread.timestamp }
        let g := dgAddNode st.digraph frnodename "FILEREAD"
        let g := dgAddEdge g node frnodename
        let g := dgAddEdge g frnodename filenodename
        pure { st with nodemetadata := md, digraph := g }) st

/-- `_add_file_copies`: `CopyFileW/A` with `status == True`.  Both the new
and the existing path go through the filter guard (in that order). -/
def add_file_copies (st : RState) (node : String) (calls : List Call) : Except PyErr RState :=
  let filecopies := calls.filter (fun c =>
    (c.api == "CopyFileW" || c.api == "CopyFileA") && c.status)
  filecopies.foldlM (fun st filecreate => do
    let existedbefore := argLast filecreate.arguments "ExistedBefore"
    let existingfilename := argLast filecreate.arguments "ExistingFileName"
    let newfilename := argLast filecreate.arguments "NewFileName"
    match newfilename with
    | none => pure st
    | some nf => do
      let skipNew ← fileSkip st nf
      if skipNew then pure st
      else do
        let skipExisting ← (do
          let b1 ← search_re_o existingfilename st.ignorepaths
          if b1 then do
            let b2 ← search_re_o existingfilename st.includepaths
            pure (!b2)
          else pure false)
        if skipExisting then pure st
        else do
          let res ← add_file_o (add_file st nf).1 existingfilename
          let nextid := res.1.nodemetadata.length
          let fcnodename := eventName .fileCopy nextid
          let md := mdInsert res.1.nodemetadata fcnodename
            { node_type := "FILECOPY", existingfile := existingfilename,
              newfile := some nf, existedbefore := existedbefore,
              timestamp := some filecreate.timestamp }
          let g := dgAddNode res.1.digraph fcnodename "FILECOPY"
          let g := dgAddEdge g node fcnodename
          let g := dgAddEdge g fcnodename (add_file st nf).2
          let g := dgAddEdge g fcnodename res.2
          pure { res.1 with nodemetadata := md, digraph := g }) st

/-- `_add_file_deletes`: `DeleteFileW/A` with `status == True`, path from
`FileName`. -/
def add_file_deletes (st : RState) (node : String) (calls : List Call) : Except PyErr RState :=
  let filedeletes := calls.filter (fun c =>
    (c.api == "DeleteFileW" || c.api == "DeleteFileA") && c.status)
  filedeletes.foldlM (fun st filedelete => do
    match argLast filedelete.arguments "FileName" with
    | none => pure st
    | some fn => do
      let skip ← fileSkip st fn
      if skip then pure st
      else
        let (st, filenodename) := add_file st fn
        let nextid := st.nodemetadata.length
        let fdnodename := eventName .fileDelete nextid
        let md := mdInsert st.nodemetadata fdnodename
          { node_type := "FILEDELETE", file := some fn,
            timestamp := some filedelete.timestamp }
        let g := dgAddNode st.digraph fdnodename "FILEDELETE"
        let g := dgAddEdge g node fdnodename
        let g := dgAddEdge g fdnodename filenodename
        pure { st with nodemetadata := md, digraph := g }) st

/-- `_add_file_moves`: `MoveFileW/A`, `MoveFileWithProgressW/A` with
`status == True`.  Faithful to the source: ONLY the new path goes through the
filter guard; the existing path is passed straight to `_add_file`. -/
def add_file_moves (st : RState) (node : String) (calls : List Call) : Except PyErr RState :=
  let filemoves := calls.filter (fun c =>
    (c.api == "MoveFileW" || c.api == "MoveFileA" ||
     c.api == "MoveFileWithProgressW" || c.api == "MoveFileWithProgressA") && c.status)
  filemoves.foldlM (fun st filemove => do
    let existingfilename := argLast filemove.arguments "ExistingFileName"
    let newfilename := argLast filemove.arguments "NewFileName"
    match newfilename with
    | none => pure st
    | some nf => do
      let skip ← fileSkip st nf
      if skip then pure st
      else do
        let res ← add_file_o (add_file st nf).1 existingfilename
        let nextid := res.1.nodemetadata.length
        let fmnodename := eventName .fileMove nextid
        let md := mdInsert res.1.nodemetadata fmnodename
          { node_type := "FILEMOVE", existingfile := existingfilename,
            newfile := some nf, timestamp := some filemove.timestamp }
        let g := dgAddNode res.1.digraph fmnodename "FILEMOVE"
        let g := dgAddEdge g node fmnodename
        let g := dgAddEdge g fmnodename (add_file st nf).2
        let g := dgAddEdge g fmnodename res.2
        pure { res.1 with nodemetadata := md, digraph := g }) st

/-- `_connect_file_to_pid`: full cross join adding an edge file-node →
PID-node whenever a FILE node's raw path equals a PID node's module path. -/
def connect_file_to_pid (st : RState) : RState :=
  let md := st.nodemetadata
  let g := md.foldl (fun g kv =>
    if kv.2.node_type == "PID" && kv.2.module_path.isSome then
      let pidpath := kv.2.module_path.getD ""
      md.foldl (fun g kv2 =>
        if kv2.2.node_type == "FILE" then
          match kv2.2.file with
          | some filepath => if pidpath == filepath then dgAddEdge g kv2.1 kv.1 else g
          | none => g
        else g) g
    else g) st.digraph
  { st with digraph := g }

/-- `_add_file_activity`: snapshot the metadata, then for every PID node
with an attached call list run the six correlators and (inside the loop,
faithful to the source indentation) `_connect_file_to_pid`. -/
def add_file_activity (st : RState) : Except PyErr RState :=
  let metadata := st.nodemetadata
  metadata.foldlM (fun st kv =>
    if kv.2.node_type == "PID" then
      match kv.2.calls with
      | some calls => do
          let st ← add_file_creates st kv.1 calls
          let st ← add_file_writes st kv.1 calls
          let st ← add_file_reads st kv.1 calls
          let st ← add_file_copies st kv.1 calls
          let st ← add_file_deletes st kv.1 calls
          let st ← add_file_moves st kv.1 calls
          pure (connect_file_to_pid st)
      | none => pure st
    else pure st) st

/-! ### `__init__` -/

/-- The construction pipeline run by `CuckooJSONReport.__init__` after the
report file is parsed.  `nodemetadata0` is the value of the CLASS-level
attribute `CuckooJSONReport.nodemetadata` when the constructor starts:
`__init__` never rebinds `self.nodemetadata`, so every mutation targets that
shared class-level dict and a later construction in the same Python process
starts from the previous construction's table (a fresh process starts from
`[]`).  The instance attribute `digraph` IS rebound (`networkx.DiGraph()`),
so the graph starts empty on every construction. -/
def CuckooJSONReport_init (nodemetadata0 : Md) (report : Report)
    (plotnetwork plotfiles : Bool)
    (ignorepaths includepaths : List String) : Except PyErr RState :=
  match add_all_processes
      { digraph := {}, nodemetadata := nodemetadata0, rootpid := "",
        ignorepaths := ignorepaths, includepaths := includepaths, domains := [] }
      report with
  | .error e => .error e
  | .ok st1 =>
    match (if plotnetwork then add_network_activity st1 report else .ok st1) with
    | .error e => .error e
    | .ok st2 => if plotfiles then add_file_activity st2 else .ok st2

/-- Number of metadata entries with a given `node_type` tag. -/
def countType (md : Md) (t : String) : Nat :=
  (md.filter (fun kv => kv.2.node_type == t)).length

end VL

namespace VL

/-! ### Definitions used by the verification layer -/

/-- The key list of the metadata dict, in insertion order. -/
def mdKeys (md : Md) : List String := md.map (fun p => p.1)

/-- Invariant: every event-node key present in the table has a sequence
number strictly below the table size.  This holds initially (empty table) and
is preserved by every operation of the pipeline; it makes the next allocation
`eventName t md.length` fresh. -/
def EventBound (md : Md) : Prop :=
  ∀ (t : EvTag) (n : Nat), mdHas md (eventName t n) = true → n < md.length

/-- A key that can never collide with an event-node key. -/
def NonEventKey (k : String) : Prop := ∀ (t : EvTag) (n : Nat), k ≠ eventName t n

/-- The combined invariant carried through the whole construction: the
event-number bound plus distinctness of the dict keys. -/
def GoodMd (md : Md) : Prop := EventBound md ∧ (mdKeys md).Nodup

/-- Decimal parser, inverse of `natDigitsAux` (used to prove `natStr`
injective). -/
def digitsToNat (l : List Char) : Nat := l.foldl (fun a c => a * 10 + (c.toNat - 48)) 0

/-- Do two character lists differ at some index below both lengths?  (If so,
no pair of extensions can be equal.) -/
def diffBelow (l1 l2 : List Char) : Bool :=
  (List.range (min l1.length l2.length)).any (fun i => l1.getD i ' ' != l2.getD i ' ')

/-- A convenience constructor for call rows. -/
def mkCall (api : String) (status : Bool) (ts : Nat) (args : List (String × String)) : Call :=
  { api := api, status := status, timestamp := ts,
    arguments := args.map (fun p => { name := p.1, value := p.2 }) }

/-- A one-process tree entry used by several concrete scenarios. -/
def soloTree : PTree := .node 1 0 "a.exe" "C:\\a.exe" [] [] []

/-- A `behavior.processes` entry for pid 1. -/
def proc1 (cs : List Call) : ProcessEntry := { process_id := 1, first_seen := 0, calls := cs }

/-- C1 scenario: socket "S" opened at t=10 with no close; one connect at t=5
and one at t=15, each with arguments ordered ip, socket, port. -/
def c1rep : Report :=
  { processtree := [soloTree],
    processes := [proc1 [
      mkCall "socket" true 10 [("socket", "S"), ("protocol", "6")],
      mkCall "connect" true 5 [("ip", "9.9.9.9"), ("socket", "S"), ("port", "80")],
      mkCall "connect" true 15 [("ip", "1.2.3.4"), ("socket", "S"), ("port", "80")]]],
    domains := [] }

/-- C2 scenario: a successful file move whose existing path "x" fails the
configured filter (`ignore_paths = ["x"]`, no includes) while the new path
"y" passes. -/
def c2rep : Report :=
  { processtree := [soloTree],
    processes := [proc1 [mkCall "MoveFileW" true 1
      [("ExistingFileName", "x"), ("NewFileName", "y")]]],
    domains := [] }

/-- C4 scenario: tree `[{pid:1,parent_id:0,children:[{pid:2,...}]}]` and one
successful file create of `C:\a.txt` by process 1, no filters. -/
def c4tree : PTree :=
  .node 1 0 "one.exe" "C:\\one.exe" [] [] [.node 2 1 "two.exe" "C:\\two.exe" [] [] []]

/-- C4 scenario report. -/
def c4rep : Report :=
  { processtree := [c4tree],
    processes := [proc1 [mkCall "NtCreateFile" true 1 [("FileName", "C:\\a.txt")]]],
    domains := [] }

/-- C5 scenario: `ignore_paths = [".*\\Temp\\.*"]` (the pattern data carries
doubled backslashes, i.e. regex "anything, backslash, Temp, backslash,
anything") and a successful delete of `C:\Temp\x.tmp`. -/
def c5rep : Report :=
  { processtree := [soloTree],
    processes := [proc1 [mkCall "DeleteFileW" true 1 [("FileName", "C:\\Temp\\x.tmp")]]],
    domains := [] }

/-- The C5 ignore list. -/
def c5ignore : List String := [".*\\\\Temp\\\\.*"]

/-- C6 scenario: a successful delete of path "b" with
`ignore_paths = ["b"]` and `include_paths = ["."]`; the path matches both
patterns (in the documented sense `re.search(pattern, path)`). -/
def c6rep : Report :=
  { processtree := [soloTree],
    processes := [proc1 [mkCall "DeleteFileW" true 1 [("FileName", "b")]]],
    domains := [] }

/-- C7 witness scenario: a tiny report with one process and no activity. -/
def c7rep : Report :=
  { processtree := [soloTree], processes := [], domains := [] }

/-- The final state of the C7 witness construction (processes stage only). -/
def c7st : RState :=
  match CuckooJSONReport_init [] c7rep false false [] [] with
  | .ok st => st
  | .error _ => {}

/-- C8 scenario: one `gethostbyname` lookup of "evil.example" with a resolved
domain row. -/
def c8rep : Report :=
  { processtree := [soloTree],
    processes := [proc1 [mkCall "gethostbyname" true 1 [("Name", "evil.example")]]],
    domains := [{ domain := "evil.example", ip := "1.2.3.4" }] }

/-- C9 scenario: a successful `CreateProcessInternalW` whose resolved child
pid 99 has no node (pid 99 is not in the process tree). -/
def c9rep : Report :=
  { processtree := [soloTree],
    processes := [proc1 [mkCall "CreateProcessInternalW" true 1
      [("ProcessId", "99"), ("CommandLine", "evil.exe /x")]]],
    domains := [] }

/-- C10 scenario: same shape as C4 but its own copy (one successful file
create), used to compare a fresh-process run with a run that starts from the
previous construction's class-level metadata table. -/
def c10rep : Report :=
  { processtree := [.node 1 0 "one.exe" "C:\\one.exe" [] []
      [.node 2 1 "two.exe" "C:\\two.exe" [] [] []]],
    processes := [proc1 [mkCall "NtCreateFile" true 1 [("FileName", "C:\\a.txt")]]],
    domains := [] }

/-- The final state of the C10 first (fresh-process) construction. -/
def c10st1 : RState :=
  match CuckooJSONReport_init [] c10rep false true [] [] with
  | .ok st => st
  | .error _ => {}

/-- The final state of the C10 second construction, started — as the Python
class-attribute semantics dictates — from the first construction's metadata
table. -/
def c10st2 : RState :=
  match CuckooJSONReport_init c10st1.nodemetadata c10rep false true [] [] with
  | .ok st => st
  | .error _ => {}

end VL

namespace VL

/-! ## Infrastructure lemmas -/

theorem strData_append (s t : String) : (s ++ t).data = s.data ++ t.data :=
  String.data_append s t

theorem strEq_of_data {s t : String} (h : s.data = t.data) : s = t := by
  cases s; cases t; exact congrArg String.mk h

theorem strApp_assoc (s t u : String) : s ++ t ++ u = s ++ (t ++ u) := by
  apply strEq_of_data
  simp [strData_append, List.append_assoc]

theorem digitsToNat_append_one (l : List Char) (c : Char) :
    digitsToNat (l ++ [c]) = digitsToNat l * 10 + (c.toNat - 48) := by
  simp [digitsToNat, List.foldl_append]

theorem digitChar_toNat {d : Nat} (h : d < 10) : (digitChar d).toNat = 48 + d := by
  interval_cases d <;> decide

theorem digitsToNat_natDigitsAux :
    ∀ (fuel n : Nat), n < fuel → digitsToNat (natDigitsAux fuel n) = n := by
  intro fuel
  induction fuel with
  | zero => intro n h; omega
  | succ f ih =>
    intro n h
    rw [natDigitsAux]
    by_cases h10 : n < 10
    · simp only [if_pos h10]
      show digitsToNat [digitChar n] = n
      simp [digitsToNat, digitChar_toNat h10]
    · simp only [if_neg h10]
      have hdiv : n / 10 < f := by
        have h1 : n / 10 < n := Nat.div_lt_self (by omega) (by omega)
        omega
      rw [digitsToNat_append_one, ih (n / 10) hdiv,
        digitChar_toNat (Nat.mod_lt n (by omega))]
      omega

theorem natStr_inj {m n : Nat} (h : natStr m = natStr n) : m = n := by
  have hd : natDigitsAux (m + 1) m = natDigitsAux (n + 1) n := congrArg String.data h
  calc m = digitsToNat (natDigitsAux (m + 1) m) :=
        (digitsToNat_natDigitsAux _ _ (by omega)).symm
    _ = digitsToNat (natDigitsAux (n + 1) n) := by rw [hd]
    _ = n := digitsToNat_natDigitsAux _ _ (by omega)

theorem strApp_cancel_left {p s1 s2 : String} (h : p ++ s1 = p ++ s2) : s1 = s2 := by
  have hd := congrArg String.data h
  rw [strData_append, strData_append] at hd
  exact strEq_of_data (List.append_cancel_left hd)

theorem diffBelow_append_ne {l1 l2 : List Char} (h : diffBelow l1 l2 = true)
    (x y : List Char) : l1 ++ x ≠ l2 ++ y := by
  intro he
  rw [diffBelow, List.any_eq_true] at h
  obtain ⟨i, hi, hne⟩ := h
  rw [List.mem_range] at hi
  have h1 : i < l1.length := lt_of_lt_of_le hi (min_le_left _ _)
  have h2 : i < l2.length := lt_of_lt_of_le hi (min_le_right _ _)
  have hg : (l1 ++ x).getD i ' ' = (l2 ++ y).getD i ' ' := by rw [he]
  rw [List.getD_append _ _ _ _ h1, List.getD_append _ _ _ _ h2] at hg
  simp only [bne_iff_ne, ne_eq] at hne
  exact hne hg

theorem strApp_ne_of_diff {p1 p2 : String} (h : diffBelow p1.data p2.data = true)
    (s1 s2 : String) : p1 ++ s1 ≠ p2 ++ s2 := by
  intro he
  have hd := congrArg String.data he
  rw [strData_append, strData_append] at hd
  exact diffBelow_append_ne h _ _ hd

theorem eventName_inj {t1 t2 : EvTag} {n1 n2 : Nat}
    (h : eventName t1 n1 = eventName t2 n2) : t1 = t2 ∧ n1 = n2 := by
  cases t1 <;> cases t2 <;> simp only [eventName, evTagStr] at h <;>
    first
      | exact ⟨rfl, natStr_inj (strApp_cancel_left h)⟩
      | exact absurd h (strApp_ne_of_diff (by decide) _ _)

theorem nonEvent_append (p : String)
    (hp : ∀ t : EvTag, diffBelow p.data (evTagStr t).data = true) (s : String) :
    NonEventKey (p ++ s) := by
  intro t n
  simpa [eventName] using strApp_ne_of_diff (hp t) s (natStr n)

theorem nonEvent_pid (s : String) : NonEventKey ("PID " ++ s) :=
  nonEvent_append "PID " (by decide) s

theorem nonEvent_host (s : String) : NonEventKey (hostNodeName s) :=
  nonEvent_append "HOST " (by decide) s

theorem nonEvent_file (s : String) : NonEventKey (fileNodeName s) := by
  rw [fileNodeName, strApp_assoc]
  exact nonEvent_append "\"FILE " (by decide) _

theorem nonEvent_ip (s : String) : NonEventKey (ipNodeName s) := by
  rw [ipNodeName, strApp_assoc]
  exact nonEvent_append "\"IP " (by decide) _

end VL

namespace VL

/-! ## Metadata-dict lemmas -/

theorem mdHas_eq_mem (md : Md) (x : String) : mdHas md x = true ↔ x ∈ mdKeys md := by
  simp [mdHas, mdKeys, List.any_eq_true, List.mem_map, beq_iff_eq]

theorem mdKeys_mdInsert (md : Md) (k : String) (v : NodeMeta) :
    mdKeys (mdInsert md k v) = if mdHas md k then mdKeys md else mdKeys md ++ [k] := by
  unfold mdInsert
  split
  · simp only [if_pos ‹_›, mdKeys, List.map_map]
    apply List.map_congr_left
    intro p _
    show (if p.1 == k then (p.1, v) else p).1 = p.1
    split <;> rfl
  · simp [mdKeys, ‹_›]

theorem length_mdInsert (md : Md) (k : String) (v : NodeMeta) :
    (mdInsert md k v).length = if mdHas md k then md.length else md.length + 1 := by
  unfold mdInsert; split <;> simp_all

theorem length_le_mdInsert (md : Md) (k : String) (v : NodeMeta) :
    md.length ≤ (mdInsert md k v).length := by
  rw [length_mdInsert]; split <;> omega

theorem mdHas_mdInsert_iff (md : Md) (k : String) (v : NodeMeta) (x : String) :
    mdHas (mdInsert md k v) x = true ↔ (mdHas md x = true ∨ x = k) := by
  rw [mdHas_eq_mem, mdKeys_mdInsert]
  by_cases h : mdHas md k
  · rw [if_pos h, ← mdHas_eq_mem]
    constructor
    · exact Or.inl
    · rintro (hx | rfl)
      · exact hx
      · exact h
  · rw [if_neg h, List.mem_append, List.mem_singleton, ← mdHas_eq_mem]

theorem mdHas_mdInsert_self (md : Md) (k : String) (v : NodeMeta) :
    mdHas (mdInsert md k v) k = true := by
  rw [mdHas_mdInsert_iff]; exact Or.inr rfl

theorem mdKeys_mdModify (md : Md) (k : String) (f : NodeMeta → NodeMeta) :
    mdKeys (mdModify md k f) = mdKeys md := by
  simp only [mdModify, mdKeys, List.map_map]
  apply List.map_congr_left
  intro p _
  show (if p.1 == k then (p.1, f p.2) else p).1 = p.1
  split <;> rfl

theorem length_mdModify (md : Md) (k : String) (f : NodeMeta → NodeMeta) :
    (mdModify md k f).length = md.length := by
  simp [mdModify]

theorem mdSetF_ok {md : Md} {k : String} {f : NodeMeta → NodeMeta} {md' : Md}
    (h : mdSetF md k f = .ok md') :
    mdKeys md' = mdKeys md ∧ md'.length = md.length := by
  unfold mdSetF at h
  split at h
  · cases h
    constructor
    · simp only [mdKeys, List.map_map]
      apply List.map_congr_left
      intro p _
      show (if p.1 == k then (p.1, f p.2) else p).1 = p.1
      split <;> rfl
    · simp
  · cases h

theorem mdHas_of_keys_eq {md1 md2 : Md} (h : mdKeys md1 = mdKeys md2) (x : String) :
    mdHas md1 x = mdHas md2 x := by
  rw [Bool.eq_iff_iff, mdHas_eq_mem, mdHas_eq_mem, h]

/-! ## Preservation of `GoodMd` by the dict primitives -/

theorem goodMd_nil : GoodMd [] := by
  constructor
  · intro t n h
    simp [mdHas] at h
  · simp [mdKeys]

theorem eventBound_fresh {md : Md} (h : EventBound md) (t : EvTag) :
    mdHas md (eventName t md.length) = false := by
  cases hx : mdHas md (eventName t md.length)
  · rfl
  · exact absurd (h t md.length hx) (lt_irrefl _)

theorem goodMd_insert_nonEvent {md : Md} {k : String} (hk : NonEventKey k)
    (v : NodeMeta) (h : GoodMd md) : GoodMd (mdInsert md k v) := by
  obtain ⟨hEB, hND⟩ := h
  constructor
  · intro t n hx
    rw [mdHas_mdInsert_iff] at hx
    rcases hx with hx | rfl
    · exact lt_of_lt_of_le (hEB t n hx) (length_le_mdInsert md k v)
    · exact absurd rfl (hk t n)
  · rw [mdKeys_mdInsert]
    split
    · exact hND
    · rw [List.nodup_append]
      refine ⟨hND, List.nodup_singleton _, ?_⟩
      intro x hx hx1
      rw [List.mem_singleton] at hx1
      subst hx1
      rw [← mdHas_eq_mem] at hx
      simp_all

theorem goodMd_insert_event {md : Md} (h : GoodMd md) (t : EvTag) (v : NodeMeta) :
    GoodMd (mdInsert md (eventName t md.length) v) := by
  obtain ⟨hEB, hND⟩ := h
  have hfresh : mdHas md (eventName t md.length) = false := eventBound_fresh hEB t
  have hlen : (mdInsert md (eventName t md.length) v).length = md.length + 1 := by
    rw [length_mdInsert, if_neg (by simp [hfresh])]
  constructor
  · intro t' n hx
    rw [mdHas_mdInsert_iff] at hx
    rcases hx with hx | heq
    · exact lt_of_lt_of_le (hEB t' n hx) (length_le_mdInsert md _ v)
    · obtain ⟨-, hn⟩ := eventName_inj heq
      omega
  · rw [mdKeys_mdInsert, if_neg (by simp [hfresh])]
    rw [List.nodup_append]
    refine ⟨hND, List.nodup_singleton _, ?_⟩
    intro x hx hx1
    rw [List.mem_singleton] at hx1
    subst hx1
    rw [← mdHas_eq_mem] at hx
    simp_all

theorem goodMd_of_keys_eq {md1 md2 : Md} (hk : mdKeys md2 = mdKeys md1)
    (hl : md2.length = md1.length) (h : GoodMd md1) : GoodMd md2 := by
  obtain ⟨hEB, hND⟩ := h
  constructor
  · intro t n hx
    rw [mdHas_of_keys_eq hk] at hx
    rw [hl]
    exact hEB t n hx
  · rw [hk]; exact hND

theorem goodMd_modify {md : Md} (k : String) (f : NodeMeta → NodeMeta)
    (h : GoodMd md) : GoodMd (mdModify md k f) :=
  goodMd_of_keys_eq (mdKeys_mdModify md k f) (length_mdModify md k f) h

theorem goodMd_setF {md : Md} {k : String} {f : NodeMeta → NodeMeta} {md' : Md}
    (hok : mdSetF md k f = .ok md') (h : GoodMd md) : GoodMd md' := by
  obtain ⟨hk, hl⟩ := mdSetF_ok hok
  exact goodMd_of_keys_eq hk hl h

end VL

namespace VL

/-! ## Preservation of the invariant along the pipeline -/

theorem foldl_preserve {β α : Type} (P : β → Prop) (f : β → α → β)
    (hf : ∀ s a, P s → P (f s a)) :
    ∀ (l : List α) (s : β), P s → P (l.foldl f s) := by
  intro l
  induction l with
  | nil => intro s h; simpa using h
  | cons a l ih =>
    intro s h
    rw [List.foldl_cons]
    exact ih _ (hf s a h)

theorem exceptBind_ok {α β : Type} (x : α) (f : α → Except PyErr β) :
    (Except.ok x >>= f) = f x := rfl

theorem exceptBind_error {α β : Type} (e : PyErr) (f : α → Except PyErr β) :
    ((Except.error e : Except PyErr α) >>= f) = Except.error e := rfl

theorem exceptPure {α : Type} (x : α) : (pure x : Except PyErr α) = Except.ok x := rfl

theorem foldlM_preserve {β α : Type} (P : β → Prop) (f : β → α → Except PyErr β)
    (hf : ∀ s a s1, P s → f s a = .ok s1 → P s1) :
    ∀ (l : List α) (s s' : β), P s → List.foldlM f s l = .ok s' → P s' := by
  intro l
  induction l with
  | nil =>
    intro s s' h hok
    simp only [List.foldlM_nil] at hok
    cases hok
    exact h
  | cons a l ih =>
    intro s s' h hok
    rw [List.foldlM_cons] at hok
    cases hfa : f s a with
    | error e => rw [hfa, exceptBind_error] at hok; simp at hok
    | ok s1 =>
      rw [hfa, exceptBind_ok] at hok
      exact ih s1 s' (hf s a s1 h hfa) hok

theorem good_add_file (st : RState) (s : String) (h : GoodMd st.nodemetadata) :
    GoodMd (add_file st s).1.nodemetadata := by
  simp only [add_file]
  split
  · exact h
  · exact goodMd_insert_nonEvent (nonEvent_file s) _ h

theorem good_add_file_o {st : RState} {o : Option String} {res : RState × String}
    (hok : add_file_o st o = .ok res) (h : GoodMd st.nodemetadata) :
    GoodMd res.1.nodemetadata := by
  cases o with
  | none => simp [add_file_o] at hok
  | some s =>
    simp only [add_file_o] at hok
    cases hok
    exact good_add_file st s h

theorem good_add_host (st : RState) (s : String) (h : GoodMd st.nodemetadata) :
    GoodMd (add_host st s).1.nodemetadata := by
  simp only [add_host]
  split
  · exact h
  · exact goodMd_insert_nonEvent (nonEvent_host s) _ h

theorem good_add_ip (st : RState) (s : String) (h : GoodMd st.nodemetadata) :
    GoodMd (add_ip st s).1.nodemetadata := by
  simp only [add_ip]
  split
  · exact h
  · exact goodMd_insert_nonEvent (nonEvent_ip s) _ h

theorem good_add_process_node (st : RState) (pid ppid : Nat) (nm mpath : String)
    (threads : List Nat) (environ : List (String × String))
    (h : GoodMd st.nodemetadata) :
    GoodMd (add_process_node st pid ppid nm mpath threads environ).nodemetadata := by
  simp only [add_process_node]
  apply goodMd_modify
  split
  · exact goodMd_insert_nonEvent (nonEvent_pid _) _ h
  · exact goodMd_insert_nonEvent (nonEvent_pid _) _
      (goodMd_insert_nonEvent (nonEvent_pid _) _ h)

mutual

theorem good_add_processes_recursive :
    ∀ (p : PTree) (st : RState), GoodMd st.nodemetadata →
      GoodMd (add_processes_recursive st p).nodemetadata
  | .node pid ppid nm mpath threads environ children, st, h =>
    good_add_processes_list children _
      (good_add_process_node st pid ppid nm mpath threads environ h)

theorem good_add_processes_list :
    ∀ (l : List PTree) (st : RState), GoodMd st.nodemetadata →
      GoodMd (add_processes_list st l).nodemetadata
  | [], _, h => h
  | c :: cs, st, h =>
    good_add_processes_list cs _ (good_add_processes_recursive c st h)

end

theorem good_add_process_metadata {st : RState} {ps : List ProcessEntry} {st' : RState}
    (hok : add_process_metadata st ps = .ok st') (h : GoodMd st.nodemetadata) :
    GoodMd st'.nodemetadata := by
  unfold add_process_metadata at hok
  refine foldlM_preserve (fun s => GoodMd s.nodemetadata) _ ?_ ps st st' h hok
  intro s a s1 hs hstep
  simp only [] at hstep
  cases h1 : (mdSetF s.nodemetadata ("PID " ++ natStr a.process_id)
      (fun m => { m with first_seen := some a.first_seen })) with
  | error e => simp only [h1, exceptBind_error] at hstep; simp at hstep
  | ok md1 =>
    simp only [h1, exceptBind_ok] at hstep
    cases h2 : (mdSetF md1 ("PID " ++ natStr a.process_id)
        (fun m => { m with calls := some a.calls })) with
    | error e => simp only [h2, exceptBind_error] at hstep; simp at hstep
    | ok md2 =>
      simp only [h2, exceptBind_ok] at hstep
      have hmd2 : GoodMd md2 := goodMd_setF h2 (goodMd_setF h1 hs)
      refine foldlM_preserve (fun s => GoodMd s.nodemetadata) _ ?_ _ _ s1 hmd2 hstep
      intro s2 cp s3 hs2 hstep2
      simp only [] at hstep2
      cases hcp : argLast cp.arguments "ProcessId" with
      | none =>
        simp only [hcp, exceptPure] at hstep2
        cases hstep2
        exact hs2
      | some cpid =>
        simp only [hcp] at hstep2
        cases h3 : (mdSetF s2.nodemetadata ("PID " ++ cpid)
            (fun m => { m with
              cmdline := some ((argLast cp.arguments "CommandLine").getD "Not Available") })) with
        | error e => simp only [h3, exceptBind_error] at hstep2; simp at hstep2
        | ok md3 =>
          simp only [h3, exceptBind_ok, exceptPure] at hstep2
          cases hstep2
          exact goodMd_setF h3 hs2

end VL

namespace VL

theorem bindStep {P : RState → Prop} {m : Except PyErr RState}
    {f : RState → Except PyErr RState} {s' : RState}
    (hm : ∀ s1, m = .ok s1 → P s1)
    (hf : ∀ s1 s2, P s1 → f s1 = .ok s2 → P s2)
    (h : (m >>= f) = .ok s') : P s' := by
  cases hmv : m with
  | error e => rw [hmv, exceptBind_error] at h; simp at h
  | ok s1 => rw [hmv, exceptBind_ok] at h; exact hf s1 s' (hm s1 hmv) h

theorem good_add_dns_lookups (st : RState) (node : String) (calls : List Call)
    (h : GoodMd st.nodemetadata) :
    GoodMd (add_dns_lookups st node calls).nodemetadata := by
  unfold add_dns_lookups
  refine foldl_preserve (fun s : RState => GoodMd s.nodemetadata) _ ?_ _ st h
  intro s a hs
  simp only []
  cases hn : argFirst a.arguments "Name" with
  | none => simpa [hn] using hs
  | some hostname =>
    simp only [hn]
    rcases hah : add_host s hostname with ⟨s1, hname⟩
    simp only [hah]
    have hs1 : GoodMd s1.nodemetadata := by
      have := good_add_host s hostname hs
      rw [hah] at this
      exact this
    refine foldl_preserve (fun s : RState => GoodMd s.nodemetadata) _ ?_ _ _ hs1
    intro s2 row hs2
    simp only []
    rcases hai : add_ip s2 row.ip with ⟨s3, iname⟩
    simp only [hai]
    have hs3 : GoodMd s3.nodemetadata := by
      have := good_add_ip s2 row.ip hs2
      rw [hai] at this
      exact this
    exact hs3

theorem bindStepG {γ α : Type} (P : γ → Prop) {m : Except PyErr α}
    {f : α → Except PyErr γ} {s' : γ}
    (hf : ∀ x s2, m = .ok x → f x = .ok s2 → P s2)
    (h : (m >>= f) = .ok s') : P s' := by
  cases hmv : m with
  | error e => rw [hmv, exceptBind_error] at h; simp at h
  | ok x => rw [hmv, exceptBind_ok] at h; exact hf x s' hmv h

theorem good_add_tcp_connects (st : RState) (node : String) (calls : List Call)
    (socketid : String) (opentime : Nat) (closetime : Option Nat)
    (h : GoodMd st.nodemetadata) :
    GoodMd (add_tcp_connects st node calls socketid opentime closetime).nodemetadata := by
  unfold add_tcp_connects
  refine foldl_preserve
    (fun acc : RState × Option String => GoodMd acc.1.nodemetadata) _ ?_ _
    (st, some socketid) h
  intro acc a hacc
  split
  · lift_lets
    extract_lets inner
    show GoodMd inner.1.nodemetadata
    simp only [inner]
    refine foldl_preserve
      (fun ac : RState × Option String × Option String × Option String =>
        GoodMd ac.1.nodemetadata) _ ?_ _ (acc.1, none, none, none) hacc
    intro ac arg hac
    cases hip : (if arg.name == "ip" then some arg.value else ac.2.1) with
    | none => simpa [hip] using hac
    | some ipv =>
      simp only [hip]
      rcases hai : add_ip ac.1 ipv with ⟨s2, iname⟩
      simp only [hai]
      have hs2 : GoodMd s2.nodemetadata := by
        have := good_add_ip ac.1 ipv hac
        rw [hai] at this
        exact this
      exact goodMd_insert_event hs2 .tcpConnect _
  · exact hacc

theorem good_add_sockets {st : RState} {node : String} {calls : List Call} {st' : RState}
    (hok : add_sockets st node calls = .ok st') (h : GoodMd st.nodemetadata) :
    GoodMd st'.nodemetadata := by
  unfold add_sockets at hok
  refine foldlM_preserve (fun s : RState => GoodMd s.nodemetadata) _ ?_ _ st st' h hok
  intro s a s1 hs hstep
  simp only [] at hstep
  refine bindStepG (fun s : RState => GoodMd s.nodemetadata) ?_ hstep
  intro ids s2 hids hrest
  cases hid1 : ids.1 with
  | none =>
    simp only [hid1, exceptPure] at hrest
    cases hrest
    exact hs
  | some sid =>
    simp only [hid1, exceptPure] at hrest
    cases hrest
    apply good_add_tcp_connects
    exact goodMd_insert_event hs .socketEv _

end VL

namespace VL

theorem good_add_file_creates {st : RState} {node : String} {calls : List Call} {st' : RState}
    (hok : add_file_creates st node calls = .ok st') (h : GoodMd st.nodemetadata) :
    GoodMd st'.nodemetadata := by
  unfold add_file_creates at hok
  refine foldlM_preserve (fun s : RState => GoodMd s.nodemetadata) _ ?_ _ st st' h hok
  intro s a s1 hs hstep
  simp only [] at hstep
  cases hfn : argLast a.arguments "FileName" with
  | none => simp only [hfn, exceptPure] at hstep; cases hstep; exact hs
  | some fn =>
    simp only [hfn] at hstep
    refine bindStepG (fun s2 : RState => GoodMd s2.nodemetadata) ?_ hstep
    intro b s2 hb hrest
    split at hrest
    · simp only [exceptPure] at hrest; cases hrest; exact hs
    · rcases haf : add_file s fn with ⟨s3, fname⟩
      have hs3 : GoodMd s3.nodemetadata := by
        have := good_add_file s fn hs
        rw [haf] at this
        exact this
      simp only [haf, exceptPure] at hrest
      cases hrest
      exact goodMd_insert_event hs3 .fileCreate _

theorem good_add_file_writes {st : RState} {node : String} {calls : List Call} {st' : RState}
    (hok : add_file_writes st node calls = .ok st') (h : GoodMd st.nodemetadata) :
    GoodMd st'.nodemetadata := by
  unfold add_file_writes at hok
  refine foldlM_preserve (fun s : RState => GoodMd s.nodemetadata) _ ?_ _ st st' h hok
  intro s a s1 hs hstep
  simp only [] at hstep
  cases hfn : argLast a.arguments "HandleName" with
  | none => simp only [hfn, exceptPure] at hstep; cases hstep; exact hs
  | some fn =>
    simp only [hfn] at hstep
    refine bindStepG (fun s2 : RState => GoodMd s2.nodemetadata) ?_ hstep
    intro b s2 hb hrest
    split at hrest
    · simp only [exceptPure] at hrest; cases hrest; exact hs
    · rcases haf : add_file s fn with ⟨s3, fname⟩
      have hs3 : GoodMd s3.nodemetadata := by
        have := good_add_file s fn hs
        rw [haf] at this
        exact this
      simp only [haf, exceptPure] at hrest
      cases hrest
      exact goodMd_insert_event hs3 .fileWrite _

theorem good_add_file_reads {st : RState} {node : String} {calls : List Call} {st' : RState}
    (hok : add_file_reads st node calls = .ok st') (h : GoodMd st.nodemetadata) :
    GoodMd st'.nodemetadata := by
  unfold add_file_reads at hok
  refine foldlM_preserve (fun s : RState => GoodMd s.nodemetadata) _ ?_ _ st st' h hok
  intro s a s1 hs hstep
  simp only [] at hstep
  cases hfn : argLast a.arguments "HandleName" with
  | none => simp only [hfn, exceptPure] at hstep; cases hstep; exact hs
  | some fn =>
    simp only [hfn] at hstep
    refine bindStepG (fun s2 : RState => GoodMd s2.nodemetadata) ?_ hstep
    intro b s2 hb hrest
    split at hrest
    · simp only [exceptPure] at hrest; cases hrest; exact hs
    · rcases haf : add_file s fn with ⟨s3, fname⟩
      have hs3 : GoodMd s3.nodemetadata := by
        have := good_add_file s fn hs
        rw [haf] at this
        exact this
      simp only [haf, exceptPure] at hrest
      cases hrest
      exact goodMd_insert_event hs3 .fileRead _

theorem good_add_file_deletes {st : RState} {node : String} {calls : List Call} {st' : RState}
    (hok : add_file_deletes st node calls = .ok st') (h : GoodMd st.nodemetadata) :
    GoodMd st'.nodemetadata := by
  unfold add_file_deletes at hok
  refine foldlM_preserve (fun s : RState => GoodMd s.nodemetadata) _ ?_ _ st st' h hok
  intro s a s1 hs hstep
  simp only [] at hstep
  cases hfn : argLast a.arguments "FileName" with
  | none => simp only [hfn, exceptPure] at hstep; cases hstep; exact hs
  | some fn =>
    simp only [hfn] at hstep
    refine bindStepG (fun s2 : RState => GoodMd s2.nodemetadata) ?_ hstep
    intro b s2 hb hrest
    split at hrest
    · simp only [exceptPure] at hrest; cases hrest; exact hs
    · rcases haf : add_file s fn with ⟨s3, fname⟩
      have hs3 : GoodMd s3.nodemetadata := by
        have := good_add_file s fn hs
        rw [haf] at this
        exact this
      simp only [haf, exceptPure] at hrest
      cases hrest
      exact goodMd_insert_event hs3 .fileDelete _

set_option maxHeartbeats 1600000 in
theorem good_add_file_copies {st : RState} {node : String} {calls : List Call} {st' : RState}
    (hok : add_file_copies st node calls = .ok st') (h : GoodMd st.nodemetadata) :
    GoodMd st'.nodemetadata := by
  unfold add_file_copies at hok
  refine foldlM_preserve (fun s : RState => GoodMd s.nodemetadata) _ ?_ _ st st' h hok
  intro s a s1 hs hstep
  simp only [] at hstep
  cases hfn : argLast a.arguments "NewFileName" with
  | none => simp only [hfn, exceptPure] at hstep; cases hstep; exact hs
  | some nf =>
    simp only [hfn] at hstep
    refine bindStepG (fun s2 : RState => GoodMd s2.nodemetadata) ?_ hstep
    intro b s2 hb hrest
    split at hrest
    · simp only [exceptPure] at hrest; cases hrest; exact hs
    · refine bindStepG (fun s3 : RState => GoodMd s3.nodemetadata) ?_ hrest
      intro b2 s3 hb2 hrest2
      split at hrest2
      · simp only [exceptPure] at hrest2; cases hrest2; exact hs
      · refine bindStepG (fun s5 : RState => GoodMd s5.nodemetadata) ?_ hrest2
        intro res s5 hres hrest3
        have hres1 : GoodMd res.1.nodemetadata :=
          good_add_file_o hres (good_add_file s nf hs)
        obtain rfl := (Except.ok.inj hrest3).symm
        exact goodMd_insert_event hres1 .fileCopy _

set_option maxHeartbeats 1600000 in
theorem good_add_file_moves {st : RState} {node : String} {calls : List Call} {st' : RState}
    (hok : add_file_moves st node calls = .ok st') (h : GoodMd st.nodemetadata) :
    GoodMd st'.nodemetadata := by
  unfold add_file_moves at hok
  refine foldlM_preserve (fun s : RState => GoodMd s.nodemetadata) _ ?_ _ st st' h hok
  intro s a s1 hs hstep
  simp only [] at hstep
  cases hfn : argLast a.arguments "NewFileName" with
  | none => simp only [hfn, exceptPure] at hstep; cases hstep; exact hs
  | some nf =>
    simp only [hfn] at hstep
    refine bindStepG (fun s2 : RState => GoodMd s2.nodemetadata) ?_ hstep
    intro b s2 hb hrest
    split at hrest
    · simp only [exceptPure] at hrest; cases hrest; exact hs
    · refine bindStepG (fun s5 : RState => GoodMd s5.nodemetadata) ?_ hrest
      intro res s5 hres hrest2
      have hres1 : GoodMd res.1.nodemetadata :=
        good_add_file_o hres (good_add_file s nf hs)
      obtain rfl := (Except.ok.inj hrest2).symm
      exact goodMd_insert_event hres1 .fileMove _

theorem connect_file_to_pid_nodemetadata (st : RState) :
    (connect_file_to_pid st).nodemetadata = st.nodemetadata := rfl

theorem good_add_file_activity {st : RState} {st' : RState}
    (hok : add_file_activity st = .ok st') (h : GoodMd st.nodemetadata) :
    GoodMd st'.nodemetadata := by
  unfold add_file_activity at hok
  refine foldlM_preserve (fun s : RState => GoodMd s.nodemetadata) _ ?_ _ st st' h hok
  intro s a s1 hs hstep
  split at hstep
  · cases hc : a.2.calls with
    | none => simp only [hc, exceptPure] at hstep; cases hstep; exact hs
    | some calls =>
      simp only [hc] at hstep
      refine bindStepG (fun s2 : RState => GoodMd s2.nodemetadata) ?_ hstep
      intro x1 s2 h1 hr1
      have g1 := good_add_file_creates h1 hs
      refine bindStepG (fun s2 : RState => GoodMd s2.nodemetadata) ?_ hr1
      intro x2 s3 h2 hr2
      have g2 := good_add_file_writes h2 g1
      refine bindStepG (fun s2 : RState => GoodMd s2.nodemetadata) ?_ hr2
      intro x3 s4 h3 hr3
      have g3 := good_add_file_reads h3 g2
      refine bindStepG (fun s2 : RState => GoodMd s2.nodemetadata) ?_ hr3
      intro x4 s5 h4 hr4
      have g4 := good_add_file_copies h4 g3
      refine bindStepG (fun s2 : RState => GoodMd s2.nodemetadata) ?_ hr4
      intro x5 s6 h5 hr5
      have g5 := good_add_file_deletes h5 g4
      refine bindStepG (fun s2 : RState => GoodMd s2.nodemetadata) ?_ hr5
      intro x6 s7 h6 hr6
      have g6 := good_add_file_moves h6 g5
      simp only [exceptPure] at hr6
      cases hr6
      rw [connect_file_to_pid_nodemetadata]
      exact g6
  · simp only [exceptPure] at hstep; cases hstep; exact hs

theorem good_add_network_activity {st : RState} {report : Report} {st' : RState}
    (hok : add_network_activity st report = .ok st') (h : GoodMd st.nodemetadata) :
    GoodMd st'.nodemetadata := by
  unfold add_network_activity at hok
  simp only [] at hok
  refine foldlM_preserve (fun s : RState => GoodMd s.nodemetadata) _ ?_ _
    { st with domains := report.domains } st' h hok
  intro s a s1 hs hstep
  split at hstep
  · cases hc : a.2.calls with
    | none => simp only [hc, exceptPure] at hstep; cases hstep; exact hs
    | some calls =>
      simp only [hc] at hstep
      exact good_add_sockets hstep (good_add_dns_lookups s a.1 calls hs)
  · simp only [exceptPure] at hstep; cases hstep; exact hs

theorem good_add_all_processes {st : RState} {report : Report} {st' : RState}
    (hok : add_all_processes st report = .ok st') (h : GoodMd st.nodemetadata) :
    GoodMd st'.nodemetadata := by
  unfold add_all_processes at hok
  cases htree : report.processtree with
  | nil => rw [htree] at hok; simp at hok
  | cons t0 ts =>
    rw [htree] at hok
    simp only [] at hok
    refine good_add_process_metadata hok ?_
    refine foldl_preserve (fun s : RState => GoodMd s.nodemetadata)
      add_processes_recursive ?_ _ _ h
    intro s p hp
    exact good_add_processes_recursive p s hp

theorem good_init {md0 : Md} {report : Report} {pn pf : Bool}
    {ig inc : List String} {st' : RState}
    (hok : CuckooJSONReport_init md0 report pn pf ig inc = .ok st')
    (h : GoodMd md0) : GoodMd st'.nodemetadata := by
  unfold CuckooJSONReport_init at hok
  split at hok
  · simp at hok
  · rename_i st1 heq1
    split at hok
    · simp at hok
    · rename_i st2 heq2
      have g1 : GoodMd st1.nodemetadata := good_add_all_processes heq1 h
      have g2 : GoodMd st2.nodemetadata := by
        cases pn with
        | true =>
          simp only [if_true] at heq2
          exact good_add_network_activity heq2 g1
        | false =>
          simp only [Bool.false_eq_true, if_false] at heq2
          cases heq2
          exact g1
      cases pf with
      | true =>
        simp only [if_true] at hok
        exact good_add_file_activity hok g2
      | false =>
        simp only [Bool.false_eq_true, if_false] at hok
        cases hok
        exact g2

end VL

namespace VL

/-! ## Entity-identity lemmas (for C3) -/

theorem escapeBS_ne_nil (c : Char) (cs : List Char) : escapeBS (c :: cs) ≠ [] := by
  simp only [escapeBS]
  split <;> simp

theorem escapeBS_cons_bs (cs : List Char) :
    escapeBS ('\\' :: cs) = '\\' :: '\\' :: escapeBS cs := by
  simp [escapeBS]

theorem escapeBS_cons {c : Char} (h : ¬c = '\\') (cs : List Char) :
    escapeBS (c :: cs) = c :: escapeBS cs := by
  simp [escapeBS, h]

theorem escapeBS_inj : ∀ {l1 l2 : List Char}, escapeBS l1 = escapeBS l2 → l1 = l2 := by
  intro l1
  induction l1 with
  | nil =>
    intro l2 h
    cases l2 with
    | nil => rfl
    | cons c cs => exact absurd h.symm (escapeBS_ne_nil c cs)
  | cons c cs ih =>
    intro l2 h
    cases l2 with
    | nil => exact absurd h (escapeBS_ne_nil c cs)
    | cons d ds =>
      by_cases hc : c = '\\' <;> by_cases hd : d = '\\'
      · subst hc; subst hd
        rw [escapeBS_cons_bs, escapeBS_cons_bs] at h
        simp only [List.cons.injEq, true_and] at h
        rw [ih h]
      · subst hc
        rw [escapeBS_cons_bs, escapeBS_cons hd] at h
        simp only [List.cons.injEq] at h
        exact absurd h.1.symm hd
      · subst hd
        rw [escapeBS_cons hc, escapeBS_cons_bs] at h
        simp only [List.cons.injEq] at h
        exact absurd h.1 hc
      · rw [escapeBS_cons hc, escapeBS_cons hd] at h
        simp only [List.cons.injEq] at h
        rw [h.1, ih h.2]

theorem fileNodeName_inj {s1 s2 : String} (h : fileNodeName s1 = fileNodeName s2) :
    s1 = s2 := by
  have hd := congrArg String.data h
  simp only [fileNodeName, strData_append] at hd
  have h1 := List.append_cancel_right hd
  have h2 := List.append_cancel_left h1
  exact strEq_of_data (escapeBS_inj h2)

theorem hostNodeName_inj {s1 s2 : String} (h : hostNodeName s1 = hostNodeName s2) :
    s1 = s2 := by
  simp only [hostNodeName] at h
  exact strApp_cancel_left h

theorem ipNodeName_inj {s1 s2 : String} (h : ipNodeName s1 = ipNodeName s2) :
    s1 = s2 := by
  have hd := congrArg String.data h
  simp only [ipNodeName, strData_append] at hd
  have h1 := List.append_cancel_right hd
  have h2 := List.append_cancel_left h1
  exact strEq_of_data h2

theorem add_file_snd (st : RState) (s : String) : (add_file st s).2 = fileNodeName s := by
  simp only [add_file]
  split <;> rfl

theorem add_host_snd (st : RState) (s : String) : (add_host st s).2 = hostNodeName s := by
  simp only [add_host]
  split <;> rfl

theorem add_ip_snd (st : RState) (s : String) : (add_ip st s).2 = ipNodeName s := by
  simp only [add_ip]
  split <;> rfl

theorem mdHas_add_file (st : RState) (s : String) :
    mdHas (add_file st s).1.nodemetadata (fileNodeName s) = true := by
  simp only [add_file]
  split
  · exact ‹_›
  · exact mdHas_mdInsert_self _ _ _

theorem mdHas_add_host (st : RState) (s : String) :
    mdHas (add_host st s).1.nodemetadata (hostNodeName s) = true := by
  simp only [add_host]
  split
  · exact ‹_›
  · exact mdHas_mdInsert_self _ _ _

theorem mdHas_add_ip (st : RState) (s : String) :
    mdHas (add_ip st s).1.nodemetadata (ipNodeName s) = true := by
  simp only [add_ip]
  split
  · exact ‹_›
  · exact mdHas_mdInsert_self _ _ _

theorem add_file_of_has {st : RState} {s : String}
    (h : mdHas st.nodemetadata (fileNodeName s) = true) :
    add_file st s = (st, fileNodeName s) := by
  simp only [add_file]
  rw [if_pos h]

theorem add_host_of_has {st : RState} {s : String}
    (h : mdHas st.nodemetadata (hostNodeName s) = true) :
    add_host st s = (st, hostNodeName s) := by
  simp only [add_host]
  rw [if_pos h]

theorem add_ip_of_has {st : RState} {s : String}
    (h : mdHas st.nodemetadata (ipNodeName s) = true) :
    add_ip st s = (st, ipNodeName s) := by
  simp only [add_ip]
  rw [if_pos h]

end VL

namespace VL

/-! ## Claim theorems -/

/-- C1: counter to the claim that each connect call at or after the socket
open time yields exactly ONE TCPCONNECT node.  On a socket "S" opened at
t=10 with no close, a connect at t=5 yields nothing, but the single connect
at t=15 (arguments ordered ip, socket, port) yields THREE TCPCONNECT nodes —
the creation block sits inside the argument loop, so one node is allocated
per argument position from the first `ip` argument onward.  All TCPCONNECT
metadata rows carry timestamp 15, confirming the t=5 call produced none. -/
theorem C1_connect_creates_one_node_per_argument :
    (CuckooJSONReport_init [] c1rep true true [] []).toOption.map
        (fun st => (countType st.nodemetadata "TCPCONNECT",
          (st.nodemetadata.filter (fun kv => kv.2.node_type == "TCPCONNECT")).all
            (fun kv => kv.2.timestamp == some 15)))
      = some (3, true) := rfl

/-- C2: counter to the claim that both paths of a move are independently
filtered.  With `ignore_paths = ["x"]` and no includes, the existing path
"x" satisfies the code's own drop condition
(`_search_re("x", ignore) and not _search_re("x", include)`), yet a
successful `MoveFileW` of "x" to "y" still creates the FILEMOVE event node
and FILE nodes for BOTH paths: `_add_file_moves` only filters the new
path. -/
theorem C2_move_ignores_existing_path_filter :
    search_re "x" ["x"] = .ok true ∧ search_re "x" ([] : List String) = .ok false ∧
    (CuckooJSONReport_init [] c2rep false true ["x"] []).toOption.map
        (fun st => (countType st.nodemetadata "FILEMOVE",
          mdHas st.nodemetadata "\"FILE x\"", mdHas st.nodemetadata "\"FILE y\""))
      = some (1, true, true) :=
  ⟨rfl, rfl, rfl⟩

/-- C3: entity identity is injective per kind and idempotent.  (1) Distinct
raw strings yield distinct node names for each of the three entity kinds;
(2) the name returned by `_add_file` / `_add_host` / `_add_ip` is a pure
function of the raw string, independent of the construction state — so
repeated calls at ANY point of a construction, whichever operation first
created the node, return the same identity; (3) re-adding an existing entity
returns the same name and leaves the state unchanged. -/
theorem C3_entity_identity_injective_idempotent :
    (∀ s1 s2 : String, s1 ≠ s2 →
        fileNodeName s1 ≠ fileNodeName s2 ∧ hostNodeName s1 ≠ hostNodeName s2 ∧
        ipNodeName s1 ≠ ipNodeName s2)
  ∧ (∀ (st : RState) (s : String),
        (add_file st s).2 = fileNodeName s ∧ (add_host st s).2 = hostNodeName s ∧
        (add_ip st s).2 = ipNodeName s)
  ∧ (∀ (st : RState) (s : String),
        add_file (add_file st s).1 s = ((add_file st s).1, fileNodeName s) ∧
        add_host (add_host st s).1 s = ((add_host st s).1, hostNodeName s) ∧
        add_ip (add_ip st s).1 s = ((add_ip st s).1, ipNodeName s)) := by
  refine ⟨?_, ?_, ?_⟩
  · intro s1 s2 hne
    exact ⟨fun h => hne (fileNodeName_inj h), fun h => hne (hostNodeName_inj h),
      fun h => hne (ipNodeName_inj h)⟩
  · intro st s
    exact ⟨add_file_snd st s, add_host_snd st s, add_ip_snd st s⟩
  · intro st s
    exact ⟨add_file_of_has (mdHas_add_file st s), add_host_of_has (mdHas_add_host st s),
      add_ip_of_has (mdHas_add_ip st s)⟩

/-- C3 witness: the general theorem applied at the concrete strings "a" and
"b" and at the empty construction state. -/
theorem C3_witness :
    (fileNodeName "a" ≠ fileNodeName "b" ∧ hostNodeName "a" ≠ hostNodeName "b" ∧
      ipNodeName "a" ≠ ipNodeName "b")
  ∧ (add_file ({} : RState) "a").2 = fileNodeName "a" :=
  ⟨C3_entity_identity_injective_idempotent.1 "a" "b" (by decide),
   (C3_entity_identity_injective_idempotent.2.1 ({} : RState) "a").1⟩

/-- C4: counter to the claim's expectation that the scenario yields a
placeholder graph node `PID 0` and an edge `PID 0 → PID 1`.  The code
creates a `PID 0` entry only in the metadata table, never in the digraph,
and adds the parent edge only when the parent is already a graph node — so
neither the node nor the edge exists. -/
theorem C4_no_placeholder_node_or_root_edge :
    (CuckooJSONReport_init [] c4rep true true [] []).toOption.map
        (fun st => (dgHasNode st.digraph "PID 0",
          st.digraph.edges.contains ("PID 0", "PID 1")))
      = some (false, false) := rfl

/-- C4 (amended): on the scenario input the construction yields exactly the
graph nodes PID 1, PID 2, the FILE node for `C:\a.txt` and one FILECREATE
node, exactly the edges PID1→PID2, PID1→FILECREATE and FILECREATE→FILE, and
a `PID 0` placeholder that exists only as a metadata entry of node_type
"PID" (not as a graph node, with no edge from it). -/
theorem C4_amended_scenario_graph :
    (CuckooJSONReport_init [] c4rep true true [] []).toOption.map
        (fun st => (st.digraph.nodes, st.digraph.edges,
          mdHas st.nodemetadata "PID 0",
          (mdFind st.nodemetadata "PID 0").map (fun m => m.node_type)))
      = some
          ([("PID 1", some "PID"), ("PID 2", some "PID"),
            ("\"FILE C:\\\\a.txt\"", some "FILE"), ("FILE CREATE 4", some "FILECREATE")],
           [("PID 1", "PID 2"), ("PID 1", "FILE CREATE 4"),
            ("FILE CREATE 4", "\"FILE C:\\\\a.txt\"")],
           true, some "PID") := rfl

/-- C5: counter to the claim that the delete of `C:\Temp\x.tmp` under
`ignore_paths = [".*\\Temp\\.*"]` is silently filtered (zero FILEDELETE
nodes).  Because `_search_re` passes the PATH as the regex pattern and the
configured pattern as the text, the construction raises `re.error` (the
path's `\T`/`\x` are invalid escapes) instead of filtering.  The second
conjunct shows that with the documented argument order the path WOULD match
the ignore pattern, i.e. the claim describes the intended behaviour. -/
theorem C5_temp_delete_raises_re_error :
    CuckooJSONReport_init [] c5rep false true c5ignore [] = .error .reError ∧
    reSearch ".*\\\\Temp\\\\.*" "C:\\Temp\\x.tmp" = .ok true :=
  ⟨rfl, rfl⟩

/-- C6: counter to "include overrides ignore".  The path "b" matches both
the ignore pattern "b" and the include pattern "." in the documented sense
`re.search(pattern, path)` (first two conjuncts), so the claim says the
delete event must be admitted.  With the code's swapped `re.search`
arguments the include check fails ("b" does not occur in the text "."), and
the event is dropped: no FILEDELETE node and no FILE node for "b". -/
theorem C6_include_fails_to_override_ignore :
    reSearch "b" "b" = .ok true ∧ reSearch "." "b" = .ok true ∧
    (CuckooJSONReport_init [] c6rep false true ["b"] ["."]).toOption.map
        (fun st => (countType st.nodemetadata "FILEDELETE",
          mdHas st.nodemetadata "\"FILE b\""))
      = some (0, false) :=
  ⟨rfl, rfl, rfl⟩

/-- C7: event-node identity is unique across the whole run.  Starting from
any class-level table satisfying the event-number bound with distinct keys
(in particular the empty table of a fresh process, and the final table of
any previous run): (1) a successful construction ends with distinct
metadata keys and the bound re-established; (2) `eventName` is injective,
so distinct event entries have distinct (type tag, sequence number)
identities; (3) at any table satisfying the bound — as every intermediate
table of the construction does, by the preservation argument behind (1) —
the next allocation `eventName t (len md)` is not an existing key, so no
event node is silently overwritten. -/
theorem C7_event_identity_unique (md0 : Md) (report : Report) (pn pf : Bool)
    (ig inc : List String) (h1 : EventBound md0) (h2 : (mdKeys md0).Nodup) :
    (∀ st, CuckooJSONReport_init md0 report pn pf ig inc = .ok st →
        EventBound st.nodemetadata ∧ (mdKeys st.nodemetadata).Nodup)
  ∧ (∀ (t1 t2 : EvTag) (n1 n2 : Nat),
        eventName t1 n1 = eventName t2 n2 → t1 = t2 ∧ n1 = n2)
  ∧ (∀ (md : Md) (t : EvTag), EventBound md →
        mdHas md (eventName t md.length) = false) := by
  refine ⟨?_, ?_, ?_⟩
  · intro st hok
    exact good_init hok ⟨h1, h2⟩
  · intro t1 t2 n1 n2 h
    exact eventName_inj h
  · intro md t hEB
    exact eventBound_fresh hEB t

/-- C7 witness: the theorem applied to the empty class-level table and the
tiny concrete report `c7rep`, with the resulting state evaluated. -/
theorem C7_witness :
    EventBound c7st.nodemetadata ∧ (mdKeys c7st.nodemetadata).Nodup :=
  (C7_event_identity_unique [] c7rep false false [] []
    goodMd_nil.1 goodMd_nil.2).1 c7st (by rfl)

/-- C8: counter to "graph type tag equals metadata node_type; a host node is
tagged HOST in both".  After one `gethostbyname` lookup of "evil.example",
the graph node carries `type='HOST'` while its metadata entry records
`node_type = 'IP'` (`_add_host` stores the IP tag). -/
theorem C8_host_tagged_ip_in_metadata :
    (CuckooJSONReport_init [] c8rep true false [] []).toOption.map
        (fun st => (dgNodeType st.digraph (hostNodeName "evil.example"),
          (mdFind st.nodemetadata (hostNodeName "evil.example")).map
            (fun m => m.node_type)))
      = some (some (some "HOST"), some "IP") := rfl

/-- C9: counter to the claim that the command-line join is best-effort.  A
successful `CreateProcessInternalW` with resolved child pid 99 and a command
line, where no `PID 99` node exists, makes the whole construction raise
`KeyError` (bare dict subscript in `_add_process_metadata`) instead of
silently skipping the assignment. -/
theorem C9_missing_child_pid_raises_keyerror :
    CuckooJSONReport_init [] c9rep false false [] [] = .error .keyError := rfl

/-- C10: the metadata table is class-level shared state: `__init__` never
rebinds `self.nodemetadata`, so a second construction in the same process
starts from — and its query surface exposes — the first construction's
table (modelled by the `nodemetadata0` parameter of the embedded
constructor).  On the concrete report: every entry of the first run's table
is still present after the second run, including the first run's event node
"FILE CREATE 4"; and the second run's table differs from a fresh-process
run by the extra event node "FILE CREATE 5" (its sequence number offset by
the inherited entries). -/
theorem C10_class_level_metadata_persists :
    c10st1.nodemetadata.all (fun kv => mdHas c10st2.nodemetadata kv.1) = true ∧
    mdHas c10st1.nodemetadata "FILE CREATE 4" = true ∧
    mdHas c10st2.nodemetadata "FILE CREATE 4" = true ∧
    mdHas c10st2.nodemetadata "FILE CREATE 5" = true ∧
    mdHas c10st1.nodemetadata "FILE CREATE 5" = false :=
  ⟨rfl, rfl, rfl, rfl, rfl⟩

end VL
